import Mathlib

/-!
Shallow embedding of the rasen orchestrator core (src/rasen) in Lean 4,
together with theorems settling the natural-language specification's claims
against the code.

Each definition is translated from the named Python source location.  Python
strings become `String`, lists become `List`, dictionaries become association
lists with Python `dict` semantics, `datetime.now()` becomes an explicit
clock value passed by the caller, and fallible operations return `Except`.
Python truthiness of objects is modelled explicitly where the source
branches on it.
-/

namespace Rasen

/-! ## Data model (src/rasen/models.py) -/

/-- `TerminationReason` enum (models.py lines 11-22). -/
inductive TerminationReason where
  | complete
  | max_iterations
  | max_runtime
  | stalled
  | consecutive_failures
  | loop_thrashing
  | user_cancelled
  | session_timeout
  | error
deriving DecidableEq, Repr

/-- `SessionStatus` enum (models.py lines 25-32). -/
inductive SessionStatus where
  | continue_
  | complete
  | blocked
  | failed
  | timeout
deriving DecidableEq, Repr

/-- `SubtaskStatus` enum (models.py lines 35-41). -/
inductive SubtaskStatus where
  | pending
  | in_progress
  | completed
  | failed
deriving DecidableEq, Repr

/-- `SubtaskReview` model (models.py lines 44-49): review state attached to a
single subtask.  `status` is a free-form string among
"pending"/"approved"/"changes_requested". -/
structure SubtaskReview where
  status : String := "pending"
  feedback : List String := []
  iteration : Nat := 0
deriving DecidableEq, Repr

/-- `SubtaskQA` model (models.py lines 52-57). -/
structure SubtaskQA where
  status : String := "pending"
  issues : List String := []
  iteration : Nat := 0
deriving DecidableEq, Repr

/-- `Subtask` model (models.py lines 60-77). -/
structure Subtask where
  id : String
  description : String
  status : SubtaskStatus := .pending
  attempts : Nat := 0
  last_approach : Option String := none
  title : Option String := none
  files : List String := []
  tests : List String := []
  dependencies : List String := []
  acceptance_criteria : List String := []
  review : Option SubtaskReview := none
  qa : Option SubtaskQA := none
deriving DecidableEq, Repr

/-- `ReviewState` model (models.py lines 80-86): plan-global review state. -/
structure ReviewState where
  status : String := "pending"
  feedback : List String := []
  iteration : Nat := 0
  last_reviewed_subtask : Option String := none
deriving DecidableEq, Repr

/-- `QAState` model (models.py lines 89-95): plan-global QA state. -/
structure QAState where
  status : String := "pending"
  issues : List String := []
  iteration : Nat := 0
  recurring_issues : List String := []
deriving DecidableEq, Repr

/-- `ImplementationPlan` model (models.py lines 112-130), restricted to the
fields the orchestration logic reads.  Timestamps are modelled as natural
numbers (ticks of the wall clock). -/
structure ImplementationPlan where
  task_name : String
  subtasks : List Subtask
  created_at : Nat := 0
  updated_at : Nat := 0
  review : ReviewState := {}
  qa : QAState := {}
deriving DecidableEq, Repr

/-- `AttemptRecord` model (models.py lines 133-142). -/
structure AttemptRecord where
  subtask_id : String
  session : Nat
  success : Bool
  approach : String
  commit_hash : Option String := none
  error_message : Option String := none
  timestamp : Nat := 0
deriving DecidableEq, Repr

/-- `Event` model (models.py lines 145-149). -/
structure Event where
  topic : String
  payload : String
deriving DecidableEq, Repr

/-! ## Configuration (src/rasen/config.py) -/

/-- `BackpressureConfig` (config.py): which completion evidence is required. -/
structure BackpressureConfig where
  require_tests : Bool := true
  require_lint : Bool := true
deriving DecidableEq, Repr

/-- `ReviewConfig` (config.py). -/
structure ReviewConfig where
  enabled : Bool := true
  per_subtask : Bool := false
  max_loops : Nat := 3
deriving DecidableEq, Repr

/-- `QAConfig` (config.py). -/
structure QAConfig where
  enabled : Bool := true
  per_subtask : Bool := false
  max_iterations : Nat := 50
  recurring_issue_threshold : Nat := 3
deriving DecidableEq, Repr

/-- `StallDetectionConfig` (config.py). -/
structure StallDetectionConfig where
  max_no_commit_sessions : Nat := 3
  max_consecutive_failures : Nat := 5
deriving DecidableEq, Repr

/-- The slice of the root `Config` that the orchestration logic branches on. -/
structure Config where
  backpressure : BackpressureConfig := {}
  review : ReviewConfig := {}
  qa : QAConfig := {}
  stall_detection : StallDetectionConfig := {}
deriving DecidableEq, Repr

/-! ## String helpers

Python's `str.lower()` and the substring operator `needle in haystack`,
modelled over the character lists of the strings. -/

/-- Python `needle in hay` on character lists: some contiguous run of `hay`
equals `needle`. -/
def hasSub (needle : List Char) : List Char → Bool
  | [] => needle.isEmpty
  | c :: t => needle.isPrefixOf (c :: t) || hasSub needle t

/-- Python `needle in hay` on strings. -/
def strContains (hay needle : String) : Bool :=
  hasSub needle.toList hay.toList

/-- Python `s.lower()`, mapped over the character list (the payloads in
question are ASCII). -/
def pyLower (s : String) : String := String.mk (s.toList.map Char.toLower)

/-! ## Backpressure validator (src/rasen/validation.py lines 9-53) -/

/-- Topic test used by the completion-event search in
`validate_completion` (validation.py line 33). -/
def isCompletionTopic (e : Event) : Bool :=
  e.topic = "build.done" || e.topic = "init.done"

/-- `validate_completion(events, backpressure_config)` (validation.py
lines 9-53).  Finds the first completion event; if absent returns `False`;
otherwise checks the lower-cased payload against each enabled requirement. -/
def validate_completion (events : List Event) (cfg : BackpressureConfig) : Bool :=
  match events.find? isCompletionTopic with
  | none => false
  | some e =>
    let payload_lower := pyLower e.payload
    if cfg.require_tests
        && !(strContains payload_lower "tests: pass")
        && !(strContains payload_lower "test pass") then
      false
    else if cfg.require_lint
        && !(strContains payload_lower "lint: pass")
        && !(strContains payload_lower "lint pass") then
      false
    else
      true

/-! ## Event helpers (src/rasen/events.py lines 30-52) -/

/-- `has_completion_event(events)` (events.py lines 30-40). -/
def has_completion_event (events : List Event) : Bool :=
  events.any (fun e => e.topic = "build.done" || e.topic = "init.done")

/-- `has_blocked_event(events)` (events.py lines 43-52). -/
def has_blocked_event (events : List Event) : Bool :=
  events.any (fun e => e.topic = "build.blocked")

/-! ## Plan store (src/rasen/stores/plan_store.py) -/

/-- `PlanStore.get_next_subtask` (plan_store.py lines 64-88): first
`in_progress` subtask, else first `pending` subtask, else `none`; `none`
when no plan is stored. -/
def get_next_subtask (planOpt : Option ImplementationPlan) : Option Subtask :=
  match planOpt with
  | none => none
  | some plan =>
    match plan.subtasks.find? (fun s => s.status = SubtaskStatus.in_progress) with
    | some s => some s
    | none => plan.subtasks.find? (fun s => s.status = SubtaskStatus.pending)

/-- Body of the `for ... break` loop in `PlanStore._update_subtask_status`
(plan_store.py lines 157-160): set the status of the first subtask whose id
matches; leave everything else unchanged. -/
def setFirstStatus : List Subtask → String → SubtaskStatus → List Subtask
  | [], _, _ => []
  | s :: t, sid, st =>
    if s.id = sid then { s with status := st } :: t
    else s :: setFirstStatus t sid st

/-- Body of the `for ... break` loop in `PlanStore.increment_attempts`
(plan_store.py lines 125-129). -/
def incFirstAttempts : List Subtask → String → String → List Subtask
  | [], _, _ => []
  | s :: t, sid, approach =>
    if s.id = sid then
      { s with attempts := s.attempts + 1, last_approach := some approach } :: t
    else s :: incFirstAttempts t sid approach

/-- Result of a store mutation: the plan as written to disk, and whether the
plan file was rewritten (`PlanStore.save` always writes, plan_store.py
lines 44-54). -/
structure SaveResult where
  plan : ImplementationPlan
  wrote : Bool
deriving DecidableEq, Repr

/-- `PlanStore.save` (plan_store.py lines 44-54): stamps `updated_at` with
the current clock and rewrites the file atomically. -/
def planSave (plan : ImplementationPlan) (now : Nat) : SaveResult :=
  { plan := { plan with updated_at := now }, wrote := true }

/-- `PlanStore._update_subtask_status` (plan_store.py lines 146-162):
load the plan (`StoreError` when absent), update the first matching subtask,
save. -/
def update_subtask_status (planOpt : Option ImplementationPlan) (sid : String)
    (st : SubtaskStatus) (now : Nat) : Except String SaveResult :=
  match planOpt with
  | none => .error "No plan to update"
  | some plan => .ok (planSave { plan with subtasks := setFirstStatus plan.subtasks sid st } now)

/-- `PlanStore.increment_attempts` (plan_store.py lines 114-131). -/
def increment_attempts (planOpt : Option ImplementationPlan) (sid : String)
    (approach : String) (now : Nat) : Except String SaveResult :=
  match planOpt with
  | none => .error "No plan to update"
  | some plan =>
    .ok (planSave { plan with subtasks := incFirstAttempts plan.subtasks sid approach } now)

/-! ## Recovery store (src/rasen/stores/recovery_store.py) -/

/-- `RecoveryStore.record_attempt` (recovery_store.py lines 40-67).  The
source signature is `(subtask_id, session, success, approach,
commit_hash=None)`: it accepts no `error_message` argument and constructs the
`AttemptRecord` without one, so the record's `error_message` keeps its model
default `None`. -/
def record_attempt (records : List AttemptRecord) (subtask_id : String)
    (session : Nat) (success : Bool) (approach : String)
    (commit_hash : Option String) : List AttemptRecord :=
  records ++ [{ subtask_id := subtask_id, session := session, success := success,
                approach := approach, commit_hash := commit_hash }]

/-! ## Review sub-loop results (src/rasen/review.py) -/

/-- `ReviewResult` dataclass (review.py lines 24-29). -/
structure ReviewResult where
  approved : Bool
  feedback : Option String := none
deriving DecidableEq, Repr

/-- `ReviewLoopResult` dataclass (review.py lines 32-37). -/
structure ReviewLoopResult where
  passed : Bool
  feedback : Option String := none
deriving DecidableEq, Repr

/-- Python truthiness of a `ReviewLoopResult` instance.  `ReviewLoopResult`
is a plain `@dataclass` defining neither `__bool__` nor `__len__`, so every
instance is truthy regardless of its `passed` field. -/
def ReviewLoopResult.pyTruthy (_ : ReviewLoopResult) : Bool := true

/-! ## QA sub-loop results (src/rasen/qa.py) -/

/-- `QAResult` dataclass (qa.py lines 27-32): one QA iteration's verdict. -/
structure QAResult where
  approved : Bool
  issues : List String := []
deriving DecidableEq, Repr

/-- `QALoopResult` pydantic model (qa.py lines 35-39). -/
structure QALoopResult where
  passed : Bool
  issues : List String := []
deriving DecidableEq, Repr

/-- Python truthiness of a `QALoopResult` instance.  Pydantic `BaseModel`
defines neither `__bool__` nor `__len__`, so every instance is truthy
regardless of its `passed` field. -/
def QALoopResult.pyTruthy (_ : QALoopResult) : Bool := true

/-! ## Reviewer verdict resolution (src/rasen/review.py lines 181-221)

`_run_reviewer_session` runs the reviewer child process, then reads the
verdict back from the persisted plan.  The post-session verdict logic is a
pure function of (did the session raise `SessionError`?, the reloaded plan,
the subtask under review). -/

/-- The `for s in plan.subtasks` search of review.py lines 201-205: the first
subtask whose id matches and whose `review` field is set (a pydantic model
instance is truthy, `None` is falsy). -/
def findSubtaskReview (subtasks : List Subtask) (sid : String) :
    Option SubtaskReview :=
  match subtasks.find? (fun s => s.id = sid && s.review.isSome) with
  | some s => s.review
  | none => none

/-- The status/feedback pair `_run_reviewer_session` reads from the plan
(review.py lines 194-210): the subtask-level review when the subtask is not
the synthetic "build-complete" one, the subtask list is non-empty and the
subtask carries a review; otherwise the plan-global review. -/
def effectiveReviewState (plan : ImplementationPlan) (subtask : Subtask) :
    String × List String :=
  let fromSubtask :=
    if subtask.id ≠ "build-complete" && !plan.subtasks.isEmpty then
      findSubtaskReview plan.subtasks subtask.id
    else none
  match fromSubtask with
  | some r => (r.status, r.feedback)
  | none => (plan.review.status, plan.review.feedback)

/-- Python `"\n".join(feedback) if feedback else None` (review.py line 216). -/
def joinFeedback (feedback : List String) : Option String :=
  if feedback.isEmpty then none else some (String.intercalate "\x0a" feedback)

/-- Verdict of `_run_reviewer_session` (review.py lines 181-221) as a function
of whether the session raised `SessionError` and of the reloaded plan. -/
def reviewerVerdict (sessionFailed : Bool) (planOpt : Option ImplementationPlan)
    (subtask : Subtask) : ReviewResult :=
  if sessionFailed then
    { approved := true, feedback := some "Reviewer session failed, assuming approved" }
  else
    match planOpt with
    | none => { approved := true }
    | some plan =>
      let st := effectiveReviewState plan subtask
      if st.1 = "approved" then { approved := true }
      else if st.1 = "changes_requested" then
        { approved := false, feedback := joinFeedback st.2 }
      else { approved := true }

/-! ## QA verdict resolution (src/rasen/qa.py lines 404-424) -/

/-- Verdict of `_run_qa_session` (qa.py lines 326-424) as a function of
whether the session raised `SessionError` and of the reloaded plan: the
session reads the plan-global `qa.status` and fails closed. -/
def qaVerdict (sessionFailed : Bool) (planOpt : Option ImplementationPlan) :
    QAResult :=
  if sessionFailed then
    { approved := false, issues := ["QA session failed"] }
  else
    match planOpt with
    | none => { approved := false, issues := ["No implementation plan found"] }
    | some plan =>
      if plan.qa.status = "approved" then { approved := true }
      else if plan.qa.status = "rejected" then
        { approved := false, issues := plan.qa.issues }
      else { approved := false, issues := ["No clear QA signal received"] }

/-! ## Association lists with Python `dict` semantics

`no_commit_counts` in the main loop and the spawn environment in the session
runner are Python dictionaries; we model them as association lists whose
keys stay unique under `dictSet`. -/

/-- Python `d.get(k)` / `d[k]` lookup (keys are unique in our uses, so the
first match is the binding). -/
def dictGet {α : Type} (d : List (String × α)) (k : String) : Option α :=
  (d.find? (fun p => p.1 = k)).map (fun p => p.2)

/-- Python `d[k] = v`: replace the binding in place, or append a new one. -/
def dictSet {α : Type} : List (String × α) → String → α → List (String × α)
  | [], k, v => [(k, v)]
  | p :: t, k, v => if p.1 = k then (k, v) :: t else p :: dictSet t k v

/-- Python `d.get(k, 0)` (loop.py line 195). -/
def dictGetD0 (d : List (String × Nat)) (k : String) : Nat :=
  (dictGet d k).getD 0

/-! ## Stall detection (src/rasen/loop.py lines 192-208 and 270-273)

After each coder session the loop counts the commits made; zero commits
bumps the per-subtask counter and, at the threshold, raises
`StallDetectedError(msg, TerminationReason.STALLED)` which `run` catches and
converts into its `termination_reason`.  A session with commits resets the
counter to zero and adds to `total_commits`. -/

/-- Outcome of the per-session stall check. -/
inductive StallStep where
  | terminated (reason : TerminationReason) (counts : List (String × Nat))
  | continuing (counts : List (String × Nat)) (commitsAdded : Nat)
deriving DecidableEq, Repr

/-- The commit-count bookkeeping of one loop iteration (loop.py
lines 192-208): exactly the `if commits_made == 0 ... else ...` block. -/
def processCommitCount (maxNoCommit : Nat) (counts : List (String × Nat))
    (sid : String) (commits : Nat) : StallStep :=
  if commits = 0 then
    let c := dictGetD0 counts sid + 1
    let counts' := dictSet counts sid c
    if maxNoCommit ≤ c then .terminated .stalled counts'
    else .continuing counts' 0
  else .continuing (dictSet counts sid 0) commits

/-- Result of running the stall check over a sequence of coder sessions,
each given as (subtask id, commits made). -/
inductive StallRun where
  | terminated (reason : TerminationReason) (afterSessions : Nat)
  | running (counts : List (String × Nat))
deriving DecidableEq, Repr

/-- Fold `processCommitCount` over a session sequence, tracking how many
sessions completed before termination. -/
def runStallCheck (maxNoCommit : Nat) (counts : List (String × Nat))
    (done : Nat) : List (String × Nat) → StallRun
  | [] => .running counts
  | (sid, commits) :: rest =>
    match processCommitCount maxNoCommit counts sid commits with
    | .terminated r _ => .terminated r (done + 1)
    | .continuing counts' _ => runStallCheck maxNoCommit counts' (done + 1) rest

/-- The loop starts with an empty `no_commit_counts` dictionary (loop.py
line 60). -/
def runStallCheckFromStart (maxNoCommit : Nat)
    (sessions : List (String × Nat)) : StallRun :=
  runStallCheck maxNoCommit [] 0 sessions

/-! ## Final validation (src/rasen/loop.py lines 130-172)

When `get_next_subtask` finds nothing, the loop runs build-level review
(when enabled and not per-subtask) and then the QA loop (when a plan is
loaded and QA is enabled).  The source branches `if not review_passed:` and
`if not qa_passed:` on the *objects* returned by `run_review_loop` /
`run_qa_loop`, i.e. on their Python truthiness. -/

/-- Termination reason computed by the all-subtasks-complete branch of
`OrchestrationLoop.run` (loop.py lines 130-172), as a function of the
sub-loop results it would observe. -/
def final_validation (cfg : Config) (planLoaded : Bool)
    (reviewRes : ReviewLoopResult) (qaRes : QALoopResult) : TerminationReason :=
  let reviewGate : Bool :=
    if cfg.review.enabled && !cfg.review.per_subtask then reviewRes.pyTruthy
    else true
  if !reviewGate then .error
  else
    let qaGate : Bool :=
      if planLoaded && cfg.qa.enabled then qaRes.pyTruthy else true
    if !qaGate then .error
    else .complete

/-! ## Session-result handling (src/rasen/loop.py lines 211-248) -/

/-- Observable effects of the `if session_result.status == ...` cascade. -/
structure SessionEffects where
  markedComplete : Bool
  recordedGoodCommit : Bool
  markedFailed : Bool
  consecutive_failures : Nat
deriving DecidableEq, Repr

/-- The result-classification cascade of `OrchestrationLoop.run` (loop.py
lines 211-248).  `review_passed` starts as the Python boolean `True` and,
when per-subtask review is enabled, is reassigned to the `ReviewLoopResult`
object returned by `run_review_loop`; the following `if review_passed:`
branches on Python truthiness. -/
def handle_session_result (cfg : Config) (st : SessionStatus)
    (events : List Event) (reviewRes : ReviewLoopResult)
    (failures : Nat) : SessionEffects :=
  if st = .complete then
    if validate_completion events cfg.backpressure then
      let gate : Bool :=
        if cfg.review.enabled && cfg.review.per_subtask then reviewRes.pyTruthy
        else true
      if gate then
        { markedComplete := true, recordedGoodCommit := true,
          markedFailed := false, consecutive_failures := failures }
      else
        { markedComplete := false, recordedGoodCommit := false,
          markedFailed := false, consecutive_failures := failures + 1 }
    else
      { markedComplete := false, recordedGoodCommit := false,
        markedFailed := false, consecutive_failures := failures + 1 }
  else if st = .blocked then
    { markedComplete := false, recordedGoodCommit := false,
      markedFailed := true, consecutive_failures := failures + 1 }
  else
    { markedComplete := false, recordedGoodCommit := false,
      markedFailed := false, consecutive_failures := failures + 1 }

/-! ## Coder-session attempt recording (src/rasen/loop.py lines 321-350) -/

/-- Status classification of a coder session (loop.py lines 326-334). -/
def sessionStatusOf (returncode : Int) (events : List Event) : SessionStatus :=
  if returncode = 0 && has_completion_event events then .complete
  else if has_blocked_event events then .blocked
  else if returncode = 0 then .continue_
  else .failed

/-- Python `s[-n:]`: the last `n` characters of `s` (all of `s` when it is
shorter). -/
def pyLastChars (n : Nat) (s : String) : String :=
  String.mk (s.toList.drop (s.toList.length - n))

/-- The `error_msg` value computed by `_run_session` (loop.py lines 338-340):
`None if success else output[-500:] if output else None`. -/
def sessionErrorMsg (success : Bool) (output : String) : Option String :=
  if success then none
  else if output = "" then none
  else some (pyLastChars 500 output)

/-! ## QA sub-loop (src/rasen/qa.py lines 42-95 and 236-323) -/

/-- Python `s.strip()`: drop whitespace from both ends, via the character
list. -/
def pyStrip (s : String) : String :=
  String.mk
    (((s.toList.dropWhile Char.isWhitespace).reverse.dropWhile
        Char.isWhitespace).reverse)

/-- `QAHistory._normalize_issue` (qa.py lines 84-95):
`issue.lower().strip()`. -/
def normalizeIssue (issue : String) : String := pyStrip (pyLower issue)

/-- The normalized issues contributed by one QA iteration
(`QAHistory.record`, qa.py lines 50-60). -/
def normIssues (r : QAResult) : List String := r.issues.map normalizeIssue

/-- `QAHistory.has_recurring_issues(threshold)` (qa.py lines 62-71) over the
multiset of recorded normalized issues: some issue's count reached the
threshold.  (The source keeps a `Counter`; we keep the list of recorded
occurrences, whose per-key counts are the counter's values.) -/
def hasRecurring (thr : Nat) (hist : List String) : Bool :=
  hist.any (fun n => thr ≤ hist.count n)

/-- Accumulator pass keeping the first occurrence of each string. -/
def firstOccurrencesAux (seen : List String) : List String → List String
  | [] => []
  | x :: t =>
    if x ∈ seen then firstOccurrencesAux seen t
    else x :: firstOccurrencesAux (x :: seen) t

/-- First occurrence of each string, in order: the key order of the
source's insertion-ordered `Counter`. -/
def firstOccurrences (l : List String) : List String :=
  firstOccurrencesAux [] l

/-- `QAHistory.get_recurring_issues(threshold)` (qa.py lines 73-82):
`(issue, count)` for each distinct issue whose count reached the
threshold, in first-recorded order. -/
def recurringOf (thr : Nat) (hist : List String) : List (String × Nat) :=
  (firstOccurrences hist).filterMap
    (fun n => if thr ≤ hist.count n then some (n, hist.count n) else none)

/-- Trace of one run of the QA sub-loop: the returned `QALoopResult`, whether
`QA_ESCALATION.md` was written (`_create_escalation_file`, qa.py
lines 488-543) and with which recurring issues and per-iteration history,
how many QA iterations ran, and how many coder fix sessions ran. -/
structure QALoopTrace where
  result : QALoopResult
  escalationWritten : Bool
  escalationRecurring : List (String × Nat)
  escalationHistory : List QAResult
  iterationsRun : Nat
  fixSessionsRun : Nat
deriving DecidableEq, Repr

/-- One iteration of the `for iteration in range(1, max_iterations + 1)` loop
of `run_qa_loop` (qa.py lines 276-321), driven by the stream of QA session
verdicts.  `hist` is the list of recorded normalized issues, `seen` the
recorded iterations, `fixes` the number of coder fix sessions run so far.
An exhausted verdict stream is a model artifact (the loop always has a next
session); it reports what the loop has done so far. -/
def runQaLoopGo (thr maxIter : Nat) (iteration : Nat) (hist : List String)
    (seen : List QAResult) (fixes : Nat) : List QAResult → QALoopTrace
  | [] =>
    { result := { passed := false }, escalationWritten := false,
      escalationRecurring := [], escalationHistory := seen,
      iterationsRun := iteration - 1, fixSessionsRun := fixes }
  | r :: rest =>
    if r.approved then
      { result := { passed := true }, escalationWritten := false,
        escalationRecurring := [], escalationHistory := seen ++ [r],
        iterationsRun := iteration, fixSessionsRun := fixes }
    else if hasRecurring thr (hist ++ normIssues r) then
      { result := { passed := false,
                    issues := (recurringOf thr (hist ++ normIssues r)).map
                      (fun p => p.1 ++ " (x" ++ toString p.2 ++ ")") },
        escalationWritten := true,
        escalationRecurring := recurringOf thr (hist ++ normIssues r),
        escalationHistory := seen ++ [r],
        iterationsRun := iteration, fixSessionsRun := fixes }
    else if maxIter ≤ iteration then
      { result := { passed := false, issues := r.issues },
        escalationWritten := false, escalationRecurring := [],
        escalationHistory := seen ++ [r],
        iterationsRun := iteration, fixSessionsRun := fixes }
    else
      runQaLoopGo thr maxIter (iteration + 1) (hist ++ normIssues r)
        (seen ++ [r]) (fixes + 1) rest

/-- `run_qa_loop` (qa.py lines 236-323) as a function of the configuration
and the stream of per-iteration QA verdicts.  Disabled QA returns *passed*
immediately; an empty iteration range falls through to
`QALoopResult(passed=False)` (qa.py line 323). -/
def run_qa_loop (cfg : Config) (verdicts : List QAResult) : QALoopTrace :=
  if !cfg.qa.enabled then
    { result := { passed := true }, escalationWritten := false,
      escalationRecurring := [], escalationHistory := [],
      iterationsRun := 0, fixSessionsRun := 0 }
  else if cfg.qa.max_iterations = 0 then
    { result := { passed := false }, escalationWritten := false,
      escalationRecurring := [], escalationHistory := [],
      iterationsRun := 0, fixSessionsRun := 0 }
  else
    runQaLoopGo cfg.qa.recurring_issue_threshold cfg.qa.max_iterations
      1 [] [] 0 verdicts

/-- The recorded normalized issues after the first `k` QA iterations. -/
def issuesUpTo (verdicts : List QAResult) (k : Nat) : List String :=
  ((verdicts.take k).map normIssues).flatten

/-! ## Session environment (src/rasen/claude_runner.py lines 19-57, 185-191) -/

/-- Python `dict.update`: each binding of `overrides` is assigned into
`base` in order, replacing same-named bindings. -/
def dictUpdate (base overrides : List (String × String)) :
    List (String × String) :=
  overrides.foldl (fun acc kv => dictSet acc kv.1 kv.2) base

/-- `if var_name not in env_vars: env_vars[var_name] = var_value`
(claude_runner.py lines 51-52): first found wins. -/
def addIfAbsent (acc : List (String × String)) (kv : String × String) :
    List (String × String) :=
  if (dictGet acc kv.1).isSome then acc else acc ++ [kv]

/-- `_load_anthropic_env` (claude_runner.py lines 19-57) as a function of
the `ANTHROPIC_*` export declarations parsed from each shell init file, in
file order: across all files, the first declaration of a name wins. -/
def load_anthropic_env (files : List (List (String × String))) :
    List (String × String) :=
  files.foldl (fun acc f => f.foldl addIfAbsent acc) []

/-- The child environment built by `run_claude_session` (claude_runner.py
lines 186-189): `env = os.environ.copy(); env.update(_load_anthropic_env())`. -/
def build_session_env (procEnv : List (String × String))
    (files : List (List (String × String))) : List (String × String) :=
  dictUpdate procEnv (load_anthropic_env files)

/-! ## Concrete witness data -/

/-- A completed subtask, used as concrete witness input. -/
def subW5a : Subtask := { id := "a", description := "d", status := .completed }

/-- An in-progress subtask, used as concrete witness input. -/
def subW5b : Subtask := { id := "b", description := "d", status := .in_progress }

/-- A concrete two-subtask plan, used as witness input. -/
def planW5 : ImplementationPlan := { task_name := "t", subtasks := [subW5a, subW5b] }

/-! ## First-match characterization

`List.find?` returns the first element satisfying the predicate; `FirstSuch`
is the specification-level statement of that fact, used to phrase the claims
about "the first completion event" and "the first pending/in-progress
subtask" independently of the implementation. -/

/-- `a` is the first element of `l` satisfying `p`: it occurs at some index
`i`, satisfies `p`, and every earlier element fails `p`. -/
def FirstSuch {α : Type} (p : α → Bool) (l : List α) (a : α) : Prop :=
  ∃ i : Nat, l[i]? = some a ∧ p a = true ∧
    ∀ j, j < i → ∀ b, l[j]? = some b → p b = false

theorem find?_eq_some_iff_first {α : Type} (p : α → Bool) :
    ∀ (l : List α) (a : α), l.find? p = some a ↔ FirstSuch p l a := by
  intro l
  induction l with
  | nil =>
    intro a
    simp [FirstSuch]
  | cons x t ih =>
    intro a
    by_cases hp : p x = true
    · rw [List.find?_cons_of_pos _ hp]
      constructor
      · intro h
        have hxa : x = a := by injection h
        subst hxa
        exact ⟨0, by simp, hp, fun j hj b hb => absurd hj (Nat.not_lt_zero j)⟩
      · rintro ⟨i, hi, hpa, hmin⟩
        cases i with
        | zero => simp at hi; rw [hi]
        | succ j =>
          have := hmin 0 (Nat.succ_pos j) x (by simp)
          rw [hp] at this; cases this
    · have hp' : p x = false := by simpa using hp
      rw [List.find?_cons_of_neg _ hp]
      rw [ih a]
      constructor
      · rintro ⟨i, hi, hpa, hmin⟩
        refine ⟨i + 1, by simpa using hi, hpa, ?_⟩
        intro j hj b hb
        cases j with
        | zero =>
          simp at hb
          rw [← hb]; exact hp'
        | succ j2 =>
          exact hmin j2 (by omega) b (by simpa using hb)
      · rintro ⟨i, hi, hpa, hmin⟩
        cases i with
        | zero =>
          simp at hi
          rw [← hi] at hpa
          rw [hpa] at hp'; cases hp'
        | succ j =>
          refine ⟨j, by simpa using hi, hpa, ?_⟩
          intro j2 hj2 b hb
          exact hmin (j2 + 1) (by omega) b (by simpa using hb)

/-! ## C4: backpressure validator -/

/-- C4.  `validate_completion` returns false when the event list holds no
`build.done`/`init.done` event; with `require_tests` set it returns true
only if the first completion event's lower-cased payload contains
"tests: pass" or "test pass", symmetrically for `require_lint`; and with
both requirements off it returns true for any list containing a completion
event. -/
theorem c4_validate_completion_spec (events : List Event)
    (cfg : BackpressureConfig) :
    ((∀ e ∈ events, e.topic ≠ "build.done" ∧ e.topic ≠ "init.done") →
      validate_completion events cfg = false)
  ∧ (cfg.require_tests = true → validate_completion events cfg = true →
      ∃ e, FirstSuch isCompletionTopic events e ∧
        (strContains (pyLower e.payload) "tests: pass" = true ∨
         strContains (pyLower e.payload) "test pass" = true))
  ∧ (cfg.require_lint = true → validate_completion events cfg = true →
      ∃ e, FirstSuch isCompletionTopic events e ∧
        (strContains (pyLower e.payload) "lint: pass" = true ∨
         strContains (pyLower e.payload) "lint pass" = true))
  ∧ (cfg.require_tests = false → cfg.require_lint = false →
      (∃ e ∈ events, isCompletionTopic e = true) →
      validate_completion events cfg = true) := by
  refine ⟨?_, ?_, ?_, ?_⟩
  · intro hnone
    have hfind : events.find? isCompletionTopic = none := by
      rw [List.find?_eq_none]
      intro e he
      have := hnone e he
      simp [isCompletionTopic, this.1, this.2]
    simp [validate_completion, hfind]
  · intro hreq hvalid
    cases hfind : events.find? isCompletionTopic with
    | none => simp [validate_completion, hfind] at hvalid
    | some e =>
      refine ⟨e, (find?_eq_some_iff_first _ events e).mp hfind, ?_⟩
      simp only [validate_completion, hfind] at hvalid
      by_cases h1 : strContains (pyLower e.payload) "tests: pass" = true
      · exact Or.inl h1
      · by_cases h2 : strContains (pyLower e.payload) "test pass" = true
        · exact Or.inr h2
        · simp [hreq, Bool.not_eq_true] at h1 h2
          simp [hreq, h1, h2] at hvalid
  · intro hreq hvalid
    cases hfind : events.find? isCompletionTopic with
    | none => simp [validate_completion, hfind] at hvalid
    | some e =>
      refine ⟨e, (find?_eq_some_iff_first _ events e).mp hfind, ?_⟩
      simp only [validate_completion, hfind] at hvalid
      by_cases h1 : strContains (pyLower e.payload) "lint: pass" = true
      · exact Or.inl h1
      · by_cases h2 : strContains (pyLower e.payload) "lint pass" = true
        · exact Or.inr h2
        · simp [Bool.not_eq_true] at h1 h2
          simp [hreq, h1, h2] at hvalid
  · intro ht hl hex
    obtain ⟨e, he, hp⟩ := hex
    cases hfind : events.find? isCompletionTopic with
    | none =>
      rw [List.find?_eq_none] at hfind
      exact absurd hp (by simpa using hfind e he)
    | some e2 => simp [validate_completion, hfind, ht, hl]

/-- C4 witness: at a concrete event list and configuration, the hypotheses
of each conjunct are discharged and the validator behaves as stated. -/
theorem c4_validate_completion_witness :
    validate_completion [{ topic := "build.done", payload := "done" }]
      { require_tests := false, require_lint := false } = true :=
  (c4_validate_completion_spec
      [{ topic := "build.done", payload := "done" }]
      { require_tests := false, require_lint := false }).2.2.2 rfl rfl
    ⟨{ topic := "build.done", payload := "done" }, by simp, by decide⟩

/-! ## C5: next-subtask selection -/

/-- C5.  `get_next_subtask` returns the first subtask (in stored order)
whose status is `in_progress`; failing that the first `pending` one; and
`none` when neither exists or no plan is stored. -/
theorem c5_get_next_subtask_spec (planOpt : Option ImplementationPlan) :
    (planOpt = none → get_next_subtask planOpt = none)
  ∧ (∀ plan, planOpt = some plan →
      (∀ s, get_next_subtask planOpt = some s →
        FirstSuch (fun t => t.status = SubtaskStatus.in_progress)
          plan.subtasks s
        ∨ ((∀ t ∈ plan.subtasks, t.status ≠ SubtaskStatus.in_progress)
            ∧ FirstSuch (fun t => t.status = SubtaskStatus.pending)
                plan.subtasks s))
      ∧ (get_next_subtask planOpt = none →
          ∀ t ∈ plan.subtasks,
            t.status ≠ SubtaskStatus.in_progress
            ∧ t.status ≠ SubtaskStatus.pending)) := by
  constructor
  · intro h; rw [h]; rfl
  · intro plan hplan
    subst hplan
    constructor
    · intro s hs
      simp only [get_next_subtask] at hs
      cases hfind : plan.subtasks.find?
          (fun t => t.status = SubtaskStatus.in_progress) with
      | some s0 =>
        rw [hfind] at hs
        cases hs
        exact Or.inl ((find?_eq_some_iff_first _ _ _).mp hfind)
      | none =>
        rw [hfind] at hs
        refine Or.inr ⟨?_, (find?_eq_some_iff_first _ _ _).mp hs⟩
        rw [List.find?_eq_none] at hfind
        intro t ht
        simpa using hfind t ht
    · intro hnone t ht
      simp only [get_next_subtask] at hnone
      cases hfind : plan.subtasks.find?
          (fun t => t.status = SubtaskStatus.in_progress) with
      | some s0 => rw [hfind] at hnone; cases hnone
      | none =>
        rw [hfind] at hnone
        rw [List.find?_eq_none] at hfind hnone
        exact ⟨by simpa using hfind t ht, by simpa using hnone t ht⟩

/-- C5 witness: on a concrete two-subtask plan the selector returns the
(unique) in-progress subtask, which is provably the first such. -/
theorem c5_get_next_subtask_witness :
    FirstSuch (fun t => t.status = SubtaskStatus.in_progress)
      planW5.subtasks subW5b
    ∨ ((∀ t ∈ planW5.subtasks, t.status ≠ SubtaskStatus.in_progress)
        ∧ FirstSuch (fun t => t.status = SubtaskStatus.pending)
            planW5.subtasks subW5b) :=
  ((c5_get_next_subtask_spec (some planW5)).2 planW5 rfl).1 subW5b (by decide)

/-! ## C6: review fail-open, QA fail-closed -/

/-- C6.  A reviewer session that raises `SessionError`, or after which the
plan state the sub-loop reads carries neither an "approved" nor a
"changes_requested" status (including a missing plan), yields an approved
`ReviewResult`; a QA session that raises `SessionError`, or after which the
plan-global QA status is neither "approved" nor "rejected" (including a
missing plan), yields a rejected `QAResult`. -/
theorem c6_review_fail_open_qa_fail_closed :
    (∀ planOpt subtask, (reviewerVerdict true planOpt subtask).approved = true)
  ∧ (∀ plan subtask,
      (effectiveReviewState plan subtask).1 ≠ "approved" →
      (effectiveReviewState plan subtask).1 ≠ "changes_requested" →
      (reviewerVerdict false (some plan) subtask).approved = true)
  ∧ (∀ subtask, (reviewerVerdict false none subtask).approved = true)
  ∧ (∀ planOpt, (qaVerdict true planOpt).approved = false)
  ∧ (∀ plan, plan.qa.status ≠ "approved" → plan.qa.status ≠ "rejected" →
      (qaVerdict false (some plan)).approved = false)
  ∧ ((qaVerdict false none).approved = false) := by
  refine ⟨?_, ?_, ?_, ?_, ?_, ?_⟩
  · intro planOpt subtask; rfl
  · intro plan subtask h1 h2
    simp [reviewerVerdict, h1, h2]
  · intro subtask; rfl
  · intro planOpt; rfl
  · intro plan h1 h2
    simp [qaVerdict, h1, h2]
  · rfl

/-- C6 witness: at a concrete plan whose review and QA statuses are both
left at "pending", the reviewer verdict is approved and the QA verdict is
rejected. -/
theorem c6_review_qa_witness :
    (reviewerVerdict false (some planW5) subW5b).approved = true
    ∧ (qaVerdict false (some planW5)).approved = false :=
  ⟨(c6_review_fail_open_qa_fail_closed).2.1 planW5 subW5b
      (by decide) (by decide),
   (c6_review_fail_open_qa_fail_closed).2.2.2.2.1 planW5
      (by decide) (by decide)⟩

/-! ## C1: final validation ignores sub-loop failures (code bug)

The claim says a failed build-level review or QA sub-loop makes the loop
terminate with *error*, and *complete* requires every enabled sub-loop to
pass.  `loop.py` lines 145-151 and 156-167 branch `if not review_passed:` /
`if not qa_passed:` on the `ReviewLoopResult` dataclass and the
`QALoopResult` pydantic model returned by the sub-loops; both objects are
unconditionally truthy, so the error branches are unreachable and the loop
terminates *complete* even when both sub-loops report failure. -/

/-- C1 exhibit: with build-level review and QA enabled and both sub-loops
reporting `passed := false`, the final-validation branch of the main loop
still terminates with reason `complete`, not `error`. -/
theorem c1_final_validation_ignores_subloop_failures :
    final_validation
      { review := { enabled := true, per_subtask := false },
        qa := { enabled := true } }
      true
      { passed := false }
      { passed := false }
      = TerminationReason.complete
    ∧ TerminationReason.complete ≠ TerminationReason.error := by
  exact ⟨rfl, by decide⟩

/-! ## C2: per-subtask review failure still marks the subtask complete
(code bug)

The claim says the subtask is marked completed and a known-good commit is
recorded if and only if the per-subtask review sub-loop returns *passed*,
and a *failed* review leaves the subtask incomplete and increments
`consecutive_failures`.  `loop.py` line 223 tests `if review_passed:` where
`review_passed` is the always-truthy `ReviewLoopResult` object, so the
failure branch (lines 235-237) is unreachable. -/

/-- C2 exhibit: with per-subtask review enabled, a validator-passing
completion whose review sub-loop returns `passed := false` is still marked
complete with a good commit recorded, and `consecutive_failures` stays 0. -/
theorem c2_review_failure_still_marks_complete :
    handle_session_result
      { review := { enabled := true, per_subtask := true } }
      SessionStatus.complete
      [{ topic := "build.done", payload := "tests: pass, lint: pass" }]
      { passed := false }
      0
      = { markedComplete := true, recordedGoodCommit := true,
          markedFailed := false, consecutive_failures := 0 } := by
  decide

/-! ## C3: attempt records drop the error message (code bug)

The claim says the `AttemptRecord` written after a failed session carries
the last 500 bytes of the session output in `error_message`.  `loop.py`
lines 343-350 pass `error_message=error_msg` to
`RecoveryStore.record_attempt`, but that method (recovery_store.py
lines 40-67) has no `error_message` parameter — at runtime the call raises
`TypeError` and no record is written at all — and the `AttemptRecord` it
constructs leaves `error_message` at its default `None`.  The repository's
own tests (tests/stores/test_recovery_store.py line 270,
tests/test_loop_attempt_recording.py line 152) call `record_attempt` with
`error_message` and assert it is stored. -/

/-- C3 exhibit: on a failed session with output "Error: failed to compile",
the source's `record_attempt` produces a record whose `error_message` is
`none`, while the claim requires the last-500-character slice of the
output. -/
theorem c3_record_attempt_drops_error_message :
    (record_attempt [] "task-1" 1 false "Implement feature X" none).map
        (fun r => r.error_message) = [none]
    ∧ sessionErrorMsg false "Error: failed to compile"
        = some "Error: failed to compile"
    ∧ some "Error: failed to compile" ≠ (none : Option String) := by
  refine ⟨rfl, ?_, by decide⟩
  rfl

/-! ## C9: spawn environment merge -/

/-- The keys of an association list. -/
def keysOf {α : Type} (d : List (String × α)) : List String :=
  d.map Prod.fst

theorem dictGet_cons {α : Type} (k0 : String) (v0 : α)
    (t : List (String × α)) (k : String) :
    dictGet ((k0, v0) :: t) k = if k0 = k then some v0 else dictGet t k := by
  by_cases h : k0 = k
  · simp [dictGet, List.find?_cons_of_pos, h]
  · rw [if_neg h]
    simp only [dictGet]
    rw [List.find?_cons_of_neg]
    simpa using h

theorem dictGet_eq_none_iff {α : Type} (d : List (String × α)) (k : String) :
    dictGet d k = none ↔ k ∉ keysOf d := by
  induction d with
  | nil => simp [dictGet, keysOf]
  | cons p t ih =>
    obtain ⟨k0, v0⟩ := p
    rw [dictGet_cons]
    by_cases h : k0 = k
    · subst h
      simp [keysOf]
    · rw [if_neg h, ih]
      simp only [keysOf, List.map_cons, List.mem_cons]
      constructor
      · intro hk hor
        cases hor with
        | inl he => exact h he.symm
        | inr hm => exact hk hm
      · intro hk hm
        exact hk (Or.inr hm)

theorem dictGet_dictSet_self {α : Type} (d : List (String × α))
    (k : String) (v : α) : dictGet (dictSet d k v) k = some v := by
  induction d with
  | nil => simp [dictSet, dictGet_cons]
  | cons p t ih =>
    obtain ⟨k0, v0⟩ := p
    simp only [dictSet]
    by_cases h : k0 = k
    · rw [if_pos h, dictGet_cons, if_pos rfl]
    · rw [if_neg h, dictGet_cons, if_neg h]
      exact ih

theorem dictGet_dictSet_ne {α : Type} (d : List (String × α))
    (k k2 : String) (v : α) (h : k ≠ k2) :
    dictGet (dictSet d k v) k2 = dictGet d k2 := by
  induction d with
  | nil => simp [dictSet, dictGet_cons, h, dictGet]
  | cons p t ih =>
    obtain ⟨k0, v0⟩ := p
    simp only [dictSet]
    by_cases hp : k0 = k
    · rw [if_pos hp, dictGet_cons, if_neg h, dictGet_cons, hp, if_neg h]
    · rw [if_neg hp, dictGet_cons, dictGet_cons, ih]

/-- Lookup through a Python `dict.update` when the overriding dictionary has
unique keys: the override wins where present, the base shows through
elsewhere. -/
theorem dictGet_dictUpdate :
    ∀ (o : List (String × String)), (keysOf o).Nodup →
    ∀ (b : List (String × String)) (k : String),
    dictGet (dictUpdate b o) k =
      match dictGet o k with
      | some v => some v
      | none => dictGet b k := by
  intro o
  induction o with
  | nil =>
    intro _ b k
    show dictGet b k = match (none : Option String) with
      | some v => some v
      | none => dictGet b k
    rfl
  | cons p t ih =>
    intro hnd b k
    obtain ⟨k0, v0⟩ := p
    have hnd2 := List.nodup_cons.mp (show (k0 :: keysOf t).Nodup from hnd)
    have hk0 : k0 ∉ keysOf t := hnd2.1
    have hndt : (keysOf t).Nodup := hnd2.2
    have step : dictUpdate b ((k0, v0) :: t) = dictUpdate (dictSet b k0 v0) t := rfl
    rw [step, ih hndt, dictGet_cons]
    by_cases h : k0 = k
    · subst h
      have ht : dictGet t k0 = none := (dictGet_eq_none_iff t k0).mpr hk0
      rw [ht, if_pos rfl, dictGet_dictSet_self]
    · rw [if_neg h]
      cases htk : dictGet t k with
      | some v => rfl
      | none => exact dictGet_dictSet_ne b k0 k v0 h

/-- `addIfAbsent` keeps the accumulator's keys unique. -/
theorem addIfAbsent_nodup (acc : List (String × String))
    (kv : String × String) (h : (keysOf acc).Nodup) :
    (keysOf (addIfAbsent acc kv)).Nodup := by
  simp only [addIfAbsent]
  by_cases hp : (dictGet acc kv.1).isSome
  · rw [if_pos hp]; exact h
  · rw [if_neg hp]
    have habs : kv.1 ∉ keysOf acc := by
      rw [← dictGet_eq_none_iff]
      cases hg : dictGet acc kv.1 with
      | none => rfl
      | some v => rw [hg] at hp; simp at hp
    have : keysOf (acc ++ [kv]) = keysOf acc ++ [kv.1] := by
      simp [keysOf]
    rw [this]
    simp [List.nodup_append, h, habs]

/-- A single file's fold preserves key uniqueness. -/
theorem foldl_addIfAbsent_nodup (f : List (String × String)) :
    ∀ (acc : List (String × String)), (keysOf acc).Nodup →
    (keysOf (f.foldl addIfAbsent acc)).Nodup := by
  induction f with
  | nil => intro acc h; exact h
  | cons kv t ih =>
    intro acc h
    exact ih (addIfAbsent acc kv) (addIfAbsent_nodup acc kv h)

/-- The scanned shell environment has unique names. -/
theorem load_anthropic_env_nodup (files : List (List (String × String))) :
    (keysOf (load_anthropic_env files)).Nodup := by
  suffices h : ∀ (fs : List (List (String × String)))
      (acc : List (String × String)), (keysOf acc).Nodup →
      (keysOf (fs.foldl (fun acc f => f.foldl addIfAbsent acc) acc)).Nodup by
    exact h files [] (by simp [keysOf])
  intro fs
  induction fs with
  | nil => intro acc h; exact h
  | cons f t ih =>
    intro acc h
    exact ih (f.foldl addIfAbsent acc) (foldl_addIfAbsent_nodup f acc h)

/-- C9 counterexample: a name exported both in the orchestrator's own
process environment and in a scanned shell init file takes the *shell
file's* value in the child environment, so a pre-existing process value
does not keep its value as the claim states. -/
theorem c9_process_env_overridden_counterexample :
    dictGet
      (build_session_env
        [("ANTHROPIC_API_KEY", "from-process")]
        [[("ANTHROPIC_API_KEY", "from-shell-rc")]])
      "ANTHROPIC_API_KEY" = some "from-shell-rc"
    ∧ some "from-shell-rc" ≠ some "from-process" := by
  exact ⟨by decide, by decide⟩

/-- C9 amended.  When spawning an agent session, every name produced by the
shell-init-file scan takes the scanned value in the child environment —
overriding a same-named variable of the orchestrator's own process
environment — while every other variable keeps its process value; among the
scanned files, the first file declaring a name wins (modelled inside
`load_anthropic_env`). -/
theorem c9_env_merge_amended (procEnv : List (String × String))
    (files : List (List (String × String))) (k : String) :
    (∀ v, dictGet (load_anthropic_env files) k = some v →
      dictGet (build_session_env procEnv files) k = some v)
    ∧ (dictGet (load_anthropic_env files) k = none →
      dictGet (build_session_env procEnv files) k = dictGet procEnv k) := by
  have h := dictGet_dictUpdate (load_anthropic_env files)
    (load_anthropic_env_nodup files) procEnv k
  constructor
  · intro v hv
    rw [build_session_env, h, hv]
  · intro hn
    rw [build_session_env, h, hn]

/-- C9 amended witness: with one scanned declaration and a disjoint process
variable, the scanned value appears in the child environment and the
untouched process variable shows through. -/
theorem c9_env_merge_amended_witness :
    dictGet
      (build_session_env [("PATH", "p")] [[("ANTHROPIC_API_KEY", "x")]])
      "ANTHROPIC_API_KEY" = some "x"
    ∧ dictGet
      (build_session_env [("PATH", "p")] [[("ANTHROPIC_API_KEY", "x")]])
      "PATH" = dictGet [("PATH", "p")] "PATH" :=
  ⟨(c9_env_merge_amended [("PATH", "p")] [[("ANTHROPIC_API_KEY", "x")]]
      "ANTHROPIC_API_KEY").1 "x" (by decide),
   (c9_env_merge_amended [("PATH", "p")] [[("ANTHROPIC_API_KEY", "x")]]
      "PATH").2 (by decide)⟩

/-! ## C8: stall detection -/

theorem dictGetD0_dictSet_self (d : List (String × Nat)) (k : String)
    (v : Nat) : dictGetD0 (dictSet d k v) k = v := by
  rw [dictGetD0, dictGet_dictSet_self]
  rfl

/-- A zero-commit session at the threshold raises the stall. -/
theorem processCommitCount_zero_stall (maxN : Nat)
    (counts : List (String × Nat)) (sid : String)
    (h : maxN ≤ dictGetD0 counts sid + 1) :
    processCommitCount maxN counts sid 0 =
      StallStep.terminated TerminationReason.stalled
        (dictSet counts sid (dictGetD0 counts sid + 1)) := by
  simp [processCommitCount, h]

/-- A zero-commit session below the threshold bumps the counter. -/
theorem processCommitCount_zero_cont (maxN : Nat)
    (counts : List (String × Nat)) (sid : String)
    (h : ¬ maxN ≤ dictGetD0 counts sid + 1) :
    processCommitCount maxN counts sid 0 =
      StallStep.continuing (dictSet counts sid (dictGetD0 counts sid + 1)) 0 := by
  simp [processCommitCount, h]

/-- Running `k` further zero-commit sessions on `sid` stalls exactly when
the stored counter plus `k` reaches the threshold. -/
theorem runStallCheck_zero_commits_stalls (maxN : Nat) (sid : String) :
    ∀ (k : Nat) (counts : List (String × Nat)) (done : Nat),
    1 ≤ k → dictGetD0 counts sid + k = maxN →
    runStallCheck maxN counts done (List.replicate k (sid, 0)) =
      StallRun.terminated TerminationReason.stalled (done + k) := by
  intro k
  induction k with
  | zero => intro counts done h1 _; omega
  | succ m ih =>
    intro counts done _ hsum
    rw [List.replicate_succ]
    simp only [runStallCheck]
    cases m with
    | zero =>
      rw [processCommitCount_zero_stall maxN counts sid (by omega)]
    | succ m2 =>
      rw [processCommitCount_zero_cont maxN counts sid (by omega)]
      show runStallCheck maxN (dictSet counts sid (dictGetD0 counts sid + 1))
          (done + 1) (List.replicate (m2 + 1) (sid, 0)) = _
      rw [ih (dictSet counts sid (dictGetD0 counts sid + 1)) (done + 1)
        (by omega)
        (by rw [dictGetD0_dictSet_self]; omega)]
      congr 1
      omega

/-- Running `k` zero-commit sessions below the threshold keeps the loop
running, with the counter advanced by `k`. -/
theorem runStallCheck_zero_commits_running (maxN : Nat) (sid : String) :
    ∀ (k : Nat) (counts : List (String × Nat)) (done : Nat),
    dictGetD0 counts sid + k < maxN →
    ∃ counts2,
      runStallCheck maxN counts done (List.replicate k (sid, 0)) =
        StallRun.running counts2
      ∧ dictGetD0 counts2 sid = dictGetD0 counts sid + k := by
  intro k
  induction k with
  | zero =>
    intro counts done _
    exact ⟨counts, rfl, by omega⟩
  | succ m ih =>
    intro counts done hlt
    rw [List.replicate_succ]
    simp only [runStallCheck]
    rw [processCommitCount_zero_cont maxN counts sid (by omega)]
    show ∃ counts2,
      runStallCheck maxN (dictSet counts sid (dictGetD0 counts sid + 1))
        (done + 1) (List.replicate m (sid, 0)) = StallRun.running counts2 ∧ _
    obtain ⟨counts2, heq, hval⟩ :=
      ih (dictSet counts sid (dictGetD0 counts sid + 1)) (done + 1)
        (by rw [dictGetD0_dictSet_self]; omega)
    refine ⟨counts2, heq, ?_⟩
    rw [hval, dictGetD0_dictSet_self]
    omega

/-- C8.  Starting from a fresh loop, exactly `max_no_commit_sessions`
consecutive zero-commit coder sessions on one subtask terminate the run
with reason *stalled* at the final such session; any shorter run of
zero-commit sessions leaves the loop running; and a session with at least
one commit resets that subtask's zero-commit counter to zero. -/
theorem c8_stall_after_exact_threshold (maxN : Nat) (sid : String)
    (h1 : 1 ≤ maxN) :
    (runStallCheckFromStart maxN (List.replicate maxN (sid, 0)) =
      StallRun.terminated TerminationReason.stalled maxN)
  ∧ (∀ k, k < maxN → ∃ counts,
      runStallCheckFromStart maxN (List.replicate k (sid, 0)) =
        StallRun.running counts
      ∧ dictGetD0 counts sid = k)
  ∧ (∀ counts commits, commits ≠ 0 →
      processCommitCount maxN counts sid commits =
        StallStep.continuing (dictSet counts sid 0) commits) := by
  refine ⟨?_, ?_, ?_⟩
  · have h := runStallCheck_zero_commits_stalls maxN sid maxN [] 0 h1
      (by simp [dictGetD0, dictGet])
    rw [runStallCheckFromStart, h]
    congr 1
    omega
  · intro k hk
    obtain ⟨counts, heq, hval⟩ :=
      runStallCheck_zero_commits_running maxN sid k [] 0
        (by simp [dictGetD0, dictGet]; omega)
    refine ⟨counts, heq, ?_⟩
    rw [hval]
    simp [dictGetD0, dictGet]
  · intro counts commits hc
    simp [processCommitCount, hc]

/-- C8 witness: with threshold 3 on subtask "t1", three zero-commit
sessions stall the loop after the third, two do not, and a two-commit
session resets the counter. -/
theorem c8_stall_witness :
    runStallCheckFromStart 3 (List.replicate 3 ("t1", 0)) =
      StallRun.terminated TerminationReason.stalled 3
    ∧ processCommitCount 3 [("t1", 2)] "t1" 2 =
      StallStep.continuing (dictSet [("t1", 2)] "t1" 0) 2 :=
  ⟨(c8_stall_after_exact_threshold 3 "t1" (by decide)).1,
   (c8_stall_after_exact_threshold 3 "t1" (by decide)).2.2 [("t1", 2)] 2
     (by decide)⟩

/-! ## C10: mutators on an unknown subtask id -/

theorem setFirstStatus_not_found (sid : String) (st : SubtaskStatus) :
    ∀ (l : List Subtask), (∀ s ∈ l, s.id ≠ sid) →
    setFirstStatus l sid st = l := by
  intro l
  induction l with
  | nil => intro _; rfl
  | cons s t ih =>
    intro h
    simp only [setFirstStatus]
    rw [if_neg (h s (by simp)), ih (fun x hx => h x (by simp [hx]))]

theorem incFirstAttempts_not_found (sid approach : String) :
    ∀ (l : List Subtask), (∀ s ∈ l, s.id ≠ sid) →
    incFirstAttempts l sid approach = l := by
  intro l
  induction l with
  | nil => intro _; rfl
  | cons s t ih =>
    intro h
    simp only [incFirstAttempts]
    rw [if_neg (h s (by simp)), ih (fun x hx => h x (by simp [hx]))]

/-- C10.  When the given subtask id matches no subtask of the stored plan,
`_update_subtask_status` (hence `mark_in_progress`, `mark_complete`,
`mark_failed`) and `increment_attempts` succeed, leave every subtask
unchanged, and still rewrite the plan file with a strictly later
`updated_at` (strictness from the clock having advanced past the stored
stamp). -/
theorem c10_unknown_id_noop_but_saves (plan : ImplementationPlan)
    (sid approach : String) (st : SubtaskStatus) (now : Nat)
    (hmiss : ∀ s ∈ plan.subtasks, s.id ≠ sid)
    (hclock : plan.updated_at < now) :
    (∃ r, update_subtask_status (some plan) sid st now = Except.ok r
      ∧ r.plan.subtasks = plan.subtasks
      ∧ r.plan.updated_at = now
      ∧ plan.updated_at < r.plan.updated_at
      ∧ r.wrote = true)
    ∧ (∃ r, increment_attempts (some plan) sid approach now = Except.ok r
      ∧ r.plan.subtasks = plan.subtasks
      ∧ r.plan.updated_at = now
      ∧ plan.updated_at < r.plan.updated_at
      ∧ r.wrote = true) := by
  constructor
  · refine ⟨_, rfl, ?_, rfl, hclock, rfl⟩
    simp [planSave, setFirstStatus_not_found sid st plan.subtasks hmiss]
  · refine ⟨_, rfl, ?_, rfl, hclock, rfl⟩
    simp [planSave, incFirstAttempts_not_found sid approach plan.subtasks hmiss]

/-- C10 witness: on the concrete two-subtask plan, mutating the unknown id
"zz" at clock 7 succeeds, keeps both subtasks, and stamps `updated_at = 7`. -/
theorem c10_unknown_id_witness :
    ∃ r, update_subtask_status (some planW5) "zz" SubtaskStatus.completed 7 =
        Except.ok r
      ∧ r.plan.subtasks = planW5.subtasks
      ∧ r.plan.updated_at = 7
      ∧ planW5.updated_at < r.plan.updated_at
      ∧ r.wrote = true :=
  (c10_unknown_id_noop_but_saves planW5 "zz" "unused"
      SubtaskStatus.completed 7 (by decide) (by decide)).1

/-! ## C7: QA escalation at the first threshold crossing -/

theorem issuesUpTo_zero (verdicts : List QAResult) :
    issuesUpTo verdicts 0 = [] := rfl

theorem issuesUpTo_succ_cons (r : QAResult) (rest : List QAResult) (k : Nat) :
    issuesUpTo (r :: rest) (k + 1) = normIssues r ++ issuesUpTo rest k := by
  simp [issuesUpTo, List.take_succ_cons]

/-- Inner induction for C7: from iteration `i` with recorded history `hist`,
if the next `k` QA verdicts are rejections, the recurring-issue threshold is
first crossed at the `k`-th of them, and the iteration budget allows
reaching it, then the sub-loop escalates there. -/
theorem qaLoopGo_escalates (thr maxIter : Nat) :
    ∀ (k : Nat) (verdicts : List QAResult) (i f : Nat) (hist : List String)
      (seen : List QAResult),
    1 ≤ k → k ≤ verdicts.length → i + k ≤ maxIter + 1 →
    (∀ j, j < k → ∀ r, verdicts[j]? = some r → r.approved = false) →
    hasRecurring thr (hist ++ issuesUpTo verdicts k) = true →
    (∀ j, j < k → hasRecurring thr (hist ++ issuesUpTo verdicts j) = false) →
    runQaLoopGo thr maxIter i hist seen f verdicts =
      { result := { passed := false,
                    issues := (recurringOf thr
                        (hist ++ issuesUpTo verdicts k)).map
                      (fun p => p.1 ++ " (x" ++ toString p.2 ++ ")") },
        escalationWritten := true,
        escalationRecurring := recurringOf thr (hist ++ issuesUpTo verdicts k),
        escalationHistory := seen ++ verdicts.take k,
        iterationsRun := i + (k - 1),
        fixSessionsRun := f + (k - 1) } := by
  intro k
  induction k with
  | zero =>
    intro verdicts i f hist seen h1
    omega
  | succ m ih =>
    intro verdicts i f hist seen h1 hlen hbound hrej hreach hfirst
    cases verdicts with
    | nil => simp at hlen
    | cons r rest =>
      have happr : r.approved = false := hrej 0 (by omega) r (by simp)
      have e1 : hist ++ issuesUpTo (r :: rest) (m + 1) =
          (hist ++ normIssues r) ++ issuesUpTo rest m := by
        rw [issuesUpTo_succ_cons, List.append_assoc]
      cases m with
      | zero =>
        have hrec : hasRecurring thr (hist ++ normIssues r) = true := by
          have := hreach
          rw [e1, issuesUpTo_zero, List.append_nil] at this
          exact this
        simp only [runQaLoopGo, happr, Bool.false_eq_true, if_false, hrec,
          if_true]
        rw [e1, issuesUpTo_zero, List.append_nil]
        simp [List.take_succ_cons]
      | succ m2 =>
        have hrec : hasRecurring thr (hist ++ normIssues r) = false := by
          have := hfirst 1 (by omega)
          rw [issuesUpTo_succ_cons, issuesUpTo_zero, List.append_nil] at this
          exact this
        have hiter : ¬ maxIter ≤ i := by omega
        simp only [runQaLoopGo, happr, Bool.false_eq_true, if_false, hrec,
          hiter, if_true]
        have hres := ih rest (i + 1) (f + 1) (hist ++ normIssues r)
          (seen ++ [r]) (by omega) (by simpa using hlen) (by omega)
          (fun j hj r2 h2 => hrej (j + 1) (by omega) r2 (by simpa using h2))
          (by rw [List.append_assoc, ← issuesUpTo_succ_cons]; exact hreach)
          (fun j hj => by
            have := hfirst (j + 1) (by omega)
            rw [issuesUpTo_succ_cons, ← List.append_assoc] at this
            exact this)
        rw [hres, ← e1]
        have e2 : (seen ++ [r]) ++ rest.take (m2 + 1) =
            seen ++ (r :: rest).take (m2 + 1 + 1) := by
          rw [List.take_succ_cons, List.append_assoc]
          rfl
        rw [e2]
        have e3 : i + 1 + (m2 + 1 - 1) = i + (m2 + 1 + 1 - 1) := by omega
        have e4 : f + 1 + (m2 + 1 - 1) = f + (m2 + 1 + 1 - 1) := by omega
        rw [e3, e4]

/-- C7.  With QA enabled, if the first `k` QA verdicts are rejections, the
iteration budget reaches `k`, and `k` is the first iteration at which some
normalized issue's cumulative count reaches the recurring-issue threshold,
then the QA sub-loop escalates exactly there: it writes the escalation
artifact carrying the recurring issues and the full per-iteration history,
returns *failed*, and runs exactly `k - 1` fix sessions (none after the
escalating iteration). -/
theorem c7_qa_escalates_at_first_threshold (cfg : Config)
    (verdicts : List QAResult) (k : Nat)
    (h_en : cfg.qa.enabled = true)
    (h_k1 : 1 ≤ k) (h_klen : k ≤ verdicts.length)
    (h_kmax : k ≤ cfg.qa.max_iterations)
    (h_rej : ∀ j, j < k → ∀ r, verdicts[j]? = some r → r.approved = false)
    (h_reach : hasRecurring cfg.qa.recurring_issue_threshold
        (issuesUpTo verdicts k) = true)
    (h_first : ∀ j, j < k → hasRecurring cfg.qa.recurring_issue_threshold
        (issuesUpTo verdicts j) = false) :
    run_qa_loop cfg verdicts =
      { result := { passed := false,
                    issues := (recurringOf cfg.qa.recurring_issue_threshold
                        (issuesUpTo verdicts k)).map
                      (fun p => p.1 ++ " (x" ++ toString p.2 ++ ")") },
        escalationWritten := true,
        escalationRecurring := recurringOf cfg.qa.recurring_issue_threshold
          (issuesUpTo verdicts k),
        escalationHistory := verdicts.take k,
        iterationsRun := k,
        fixSessionsRun := k - 1 } := by
  have hmax0 : ¬ cfg.qa.max_iterations = 0 := by omega
  simp only [run_qa_loop, h_en, Bool.not_true, Bool.false_eq_true, if_false,
    hmax0, if_true]
  have h := qaLoopGo_escalates cfg.qa.recurring_issue_threshold
    cfg.qa.max_iterations k verdicts 1 0 [] [] h_k1 h_klen (by omega) h_rej
    (by simpa using h_reach) (fun j hj => by simpa using h_first j hj)
  rw [h]
  simp only [List.nil_append]
  have e1 : 1 + (k - 1) = k := by omega
  have e2 : 0 + (k - 1) = k - 1 := by omega
  rw [e1, e2]

/-- C7 witness: threshold 2 and two rejections with the same normalized
issue ("Bug" / " bug ") escalate at iteration 2 with one fix session run. -/
theorem c7_qa_escalation_witness :
    run_qa_loop
      { qa := { enabled := true, max_iterations := 5,
                recurring_issue_threshold := 2 } }
      [{ approved := false, issues := ["Bug"] },
       { approved := false, issues := [" bug "] }] =
      { result := { passed := false, issues := ["bug (x2)"] },
        escalationWritten := true,
        escalationRecurring := [("bug", 2)],
        escalationHistory := [{ approved := false, issues := ["Bug"] },
                              { approved := false, issues := [" bug "] }],
        iterationsRun := 2,
        fixSessionsRun := 1 } := by
  have h := c7_qa_escalates_at_first_threshold
    { qa := { enabled := true, max_iterations := 5,
              recurring_issue_threshold := 2 } }
    [{ approved := false, issues := ["Bug"] },
     { approved := false, issues := [" bug "] }]
    2 rfl (by decide) (by decide) (by decide)
    (by
      intro j hj r hr
      match j, hj with
      | 0, _ => simp at hr; rw [← hr]
      | 1, _ => simp at hr; rw [← hr])
    (by decide)
    (by
      intro j hj
      match j, hj with
      | 0, _ => decide
      | 1, _ => decide)
  rw [h]
  decide

end Rasen
